import Mathlib

/-!
Verification of the embedding-splicing and token-registration logic of
`graphgpt/model/GraphLlama.py` (GraphGPT).

The splicer (`GraphLlamaModel.forward`, lines 216–270) is embedded as pure
functions over lists: token ids are `Nat`, embedding vectors are `List ℚ`
(exact rationals standing for the tensor arithmetic), a sample's embedding
sequence is a `List Vec`, and the flat batch of projected graph feature sets
is a `List (List Vec)`.  Fallible tensor operations (`raise ValueError`,
index errors, the unbound-local hazard, the final `assert`) are modelled by
an `Except SpliceError` result.
-/

set_option maxHeartbeats 1000000
set_option maxRecDepth 100000

namespace GraphGPT

/-- An embedding vector (one row of a tensor); entries are exact rationals. -/
abbrev Vec := List ℚ

/-- The marker-token configuration carried by `graph_tower.config`. -/
structure GraphConfig where
  graph_patch_token : Nat
  graph_start_token : Nat
  graph_end_token : Nat
  use_graph_start_end : Bool
  deriving DecidableEq, Repr

/-- The distinct ways the forward pass aborts inside the splicing block:
the three `raise ValueError` sites (start/end count mismatch and patch count
mismatch share the spec kind MarkerCountMismatch; the end-token check is
MarkerSequenceInvalid; the contiguity check is MarkerNotContiguous), tensor
indexing out of range (Python `IndexError`), reading the never-assigned
`cur_new_input_embeds` local (Python `NameError`), and the final
`assert cur_graph_idx == len(graph_node_features)` (Python `AssertionError`). -/
inductive SpliceError where
  | markerCountMismatch
  | markerSequenceInvalid
  | markerNotContiguous
  | indexError
  | nameError
  | assertionError
  deriving DecidableEq, Repr

/-- Positions (ascending) of occurrences of token `t` in `ids`, starting the
index count at `i`; models `torch.where(cur_input_ids == t)[0]`. -/
def markerPositionsFrom (t : Nat) : Nat → List Nat → List Nat
  | _, [] => []
  | i, x :: xs =>
    if x = t then i :: markerPositionsFrom t (i + 1) xs
    else markerPositionsFrom t (i + 1) xs

/-- Ascending positions of token `t` in `ids` (`torch.where(ids == t)[0]`). -/
def markerPositions (t : Nat) (ids : List Nat) : List Nat :=
  markerPositionsFrom t 0 ids

/-- `cur_input_embeds + (0. * dummy_graph_features).sum()` from line 227:
every entry of the (projected) dummy features is multiplied by `0.`, the
whole tensor is summed to a scalar, and that scalar is broadcast-added to
every entry of the sample's embeddings. -/
def addDummy (dummy : List Vec) (embeds : List Vec) : List Vec :=
  let s : ℚ := (dummy.map (fun row => (row.map (fun x => 0 * x)).sum)).sum
  embeds.map (fun v => v.map (fun x => x + s))

/-- The start/end-mode concatenation of line 248:
`cat(embeds[:p+1], feats, embeds[p+n+1:])` — the START token at `p` is kept,
the `n` positions after it are replaced by the graph features, and everything
from the END token at `p+n+1` onwards is kept. -/
def mergeAt (embeds : List Vec) (p : Nat) (feats : List Vec) : List Vec :=
  embeds.take (p + 1) ++ feats ++ embeds.drop (p + feats.length + 1)

/-- The patch-only-mode concatenation of line 263:
`cat(embeds[:start], feats, embeds[start+n:])`. -/
def replaceSpan (embeds : List Vec) (q : Nat) (feats : List Vec) : List Vec :=
  embeds.take q ++ feats ++ embeds.drop (q + feats.length)

/-- The per-START loop of lines 240–249.  State: the remaining START
positions, the graph cursor `cur_graph_idx`, and the current value of the
Python local `cur_new_input_embeds` (`none` while it has never been
assigned).  Each iteration reads the next feature set (an out-of-range
cursor is an `IndexError`), checks that the token at `p + n + 1` is the END
marker (else `ValueError`), and rebuilds `cur_new_input_embeds` from the
ORIGINAL `cur_input_embeds` — earlier iterations' splices are discarded. -/
def spliceStartEnd (cfg : GraphConfig) (ids : List Nat) (embeds : List Vec)
    (features : List (List Vec)) :
    List Nat → Nat → Option (List Vec) → Except SpliceError (Nat × Option (List Vec))
  | [], idx, last => .ok (idx, last)
  | p :: rest, idx, _last =>
    match features[idx]? with
    | none => .error .indexError
    | some feats =>
      match ids[p + feats.length + 1]? with
      | none => .error .indexError
      | some tk =>
        if tk = cfg.graph_end_token then
          spliceStartEnd cfg ids embeds features rest (idx + 1)
            (some (mergeAt embeds p feats))
        else
          .error .markerSequenceInvalid

/-- The body of the per-sample loop of `GraphLlamaModel.forward`
(lines 223–265) for one `(cur_input_ids, cur_input_embeds)` pair.
`idx` is `cur_graph_idx` on entry, `last` the current value of the local
`cur_new_input_embeds` (persists across samples in Python).  Returns the
sequence appended to `new_input_embeds`, the new cursor, and the new value
of the local. -/
def processSample (cfg : GraphConfig) (dummy : List Vec) (features : List (List Vec))
    (ids : List Nat) (embeds : List Vec) (idx : Nat) (last : Option (List Vec)) :
    Except SpliceError (List Vec × Nat × Option (List Vec)) :=
  if ids.count cfg.graph_patch_token = 0 then
    -- lines 225–230: text-only sample, dummy term, cursor still advances
    .ok (addDummy dummy embeds, idx + 1, last)
  else if cfg.use_graph_start_end then
    -- lines 232–250
    match features[idx]? with      -- line 233 reads the cursor before any check
    | none => .error .indexError
    | some _ =>
      if ids.count cfg.graph_start_token ≠ ids.count cfg.graph_end_token then
        .error .markerCountMismatch
      else
        match spliceStartEnd cfg ids embeds features
            (markerPositions cfg.graph_start_token ids) idx last with
        | .error e => .error e
        | .ok (_, none) => .error .nameError         -- append of unbound local
        | .ok (idx', some merged) => .ok (merged, idx', some merged)
  else
    -- lines 251–265
    match features[idx]? with
    | none => .error .indexError
    | some feats =>
      if ids.count cfg.graph_patch_token ≠ feats.length then
        .error .markerCountMismatch
      else
        match markerPositions cfg.graph_patch_token ids with
        | [] => .error .indexError                   -- masked_indices[0] on empty
        | q :: qs =>
          if q :: qs ≠ List.range' q feats.length then
            .error .markerNotContiguous
          else
            .ok (replaceSpan embeds q feats, idx + 1, some (replaceSpan embeds q feats))

/-- The whole per-sample loop over `zip(input_ids, inputs_embeds)`
(lines 220–265), threading the cursor and the `cur_new_input_embeds` local. -/
def spliceSamples (cfg : GraphConfig) (dummy : List Vec) (features : List (List Vec)) :
    List (List Nat × List Vec) → Nat → Option (List Vec) →
    Except SpliceError (List (List Vec) × Nat)
  | [], idx, _ => .ok ([], idx)
  | (ids, embeds) :: rest, idx, last =>
    match processSample cfg dummy features ids embeds idx last with
    | .error e => .error e
    | .ok (merged, idx', last') =>
      match spliceSamples cfg dummy features rest idx' last' with
      | .error e => .error e
      | .ok (out, idxF) => .ok (merged :: out, idxF)

/-- Lines 220–270: run the loop from `cur_graph_idx = 0` with the local
`cur_new_input_embeds` unassigned, then
`assert cur_graph_idx == len(graph_node_features)` before the merged
sequences are stacked into the batch tensor. -/
def spliceBatch (cfg : GraphConfig) (dummy : List Vec) (features : List (List Vec))
    (samples : List (List Nat × List Vec)) : Except SpliceError (List (List Vec)) :=
  match spliceSamples cfg dummy features samples 0 none with
  | .error e => .error e
  | .ok (out, idx) =>
    if idx = features.length then .ok out else .error .assertionError

/-- The gate of line 192 around the whole splicing block:
`if graph_tower is not None and (input_ids.shape[1] != 1 or self.training)
and graph_data is not None:` — when it is false the raw token embeddings are
handed to the decoder backbone unchanged (the block containing the graph
encoder, the projector and the splicer never runs).  `input_ids.shape[1]` is
the common length of the batch's token rows, read off the first sample. -/
def forwardEmbeds (hasTower training hasGraphData : Bool) (cfg : GraphConfig)
    (dummy : List Vec) (features : List (List Vec))
    (samples : List (List Nat × List Vec)) : Except SpliceError (List (List Vec)) :=
  let seqLen : Nat := match samples with | [] => 0 | s :: _ => s.1.length
  if hasTower && (decide (seqLen ≠ 1) || training) && hasGraphData then
    spliceBatch cfg dummy features samples
  else
    .ok (samples.map Prod.snd)

/-! ## Helper lemmas -/

theorem markerPositionsFrom_length_count (t : Nat) :
    ∀ (xs : List Nat) (i : Nat), (markerPositionsFrom t i xs).length = xs.count t := by
  intro xs
  induction xs with
  | nil => intro i; simp [markerPositionsFrom]
  | cons x xs ih =>
    intro i
    by_cases h : x = t
    · simp [markerPositionsFrom, h, ih, List.count_cons]
    · simp [markerPositionsFrom, h, ih, List.count_cons, Ne.symm h]

theorem markerPositions_length_count (t : Nat) (ids : List Nat) :
    (markerPositions t ids).length = ids.count t :=
  markerPositionsFrom_length_count t ids 0

theorem markerPositions_nil_of_count_zero {t : Nat} {ids : List Nat}
    (h : ids.count t = 0) : markerPositions t ids = [] := by
  have := markerPositions_length_count t ids
  rw [h] at this
  exact List.length_eq_zero.mp this

theorem markerPositionsFrom_mem_lt (t : Nat) :
    ∀ (xs : List Nat) (i p : Nat), p ∈ markerPositionsFrom t i xs → p < i + xs.length := by
  intro xs
  induction xs with
  | nil => intro i p hp; simp [markerPositionsFrom] at hp
  | cons x xs ih =>
    intro i p hp
    by_cases h : x = t
    · simp [markerPositionsFrom, h] at hp
      rcases hp with rfl | hp
      · simp
      · have := ih (i + 1) p hp
        simp only [List.length_cons]
        omega
    · simp [markerPositionsFrom, h] at hp
      have := ih (i + 1) p hp
      simp only [List.length_cons]
      omega

theorem markerPositions_mem_lt {t : Nat} {ids : List Nat} {p : Nat}
    (h : p ∈ markerPositions t ids) : p < ids.length := by
  have := markerPositionsFrom_mem_lt t ids 0 p h
  omega

/-- The dummy term of line 227 is exactly zero, so it changes no entry. -/
theorem addDummy_eq (dummy : List Vec) (embeds : List Vec) :
    addDummy dummy embeds = embeds := by
  unfold addDummy
  have hs : (dummy.map (fun row => (row.map (fun x => (0 : ℚ) * x)).sum)).sum = 0 := by
    apply List.sum_eq_zero
    intro x hx
    simp only [List.mem_map] at hx
    obtain ⟨row, _, rfl⟩ := hx
    apply List.sum_eq_zero
    intro y hy
    simp only [List.mem_map] at hy
    obtain ⟨z, _, rfl⟩ := hy
    exact zero_mul z
  rw [hs]
  simp

theorem replaceSpan_length {embeds feats : List Vec} {q : Nat}
    (h : q + feats.length ≤ embeds.length) :
    (replaceSpan embeds q feats).length = embeds.length := by
  unfold replaceSpan
  simp only [List.length_append, List.length_take, List.length_drop]
  omega

theorem replaceSpan_getElem_left {embeds feats : List Vec} {q j : Nat}
    (hq : q ≤ embeds.length) (hj : j < q) :
    (replaceSpan embeds q feats)[j]? = embeds[j]? := by
  unfold replaceSpan
  rw [List.append_assoc,
    List.getElem?_append_left (by simp only [List.length_take]; omega),
    List.getElem?_take_of_lt hj]

theorem replaceSpan_getElem_span {embeds feats : List Vec} {q k : Nat}
    (hq : q ≤ embeds.length) (hk : k < feats.length) :
    (replaceSpan embeds q feats)[q + k]? = feats[k]? := by
  unfold replaceSpan
  rw [List.append_assoc,
    List.getElem?_append_right (by simp only [List.length_take]; omega)]
  have hidx : q + k - (List.take q embeds).length = k := by
    simp only [List.length_take]; omega
  rw [hidx, List.getElem?_append_left hk]

theorem replaceSpan_getElem_right {embeds feats : List Vec} {q j : Nat}
    (hq : q + feats.length ≤ embeds.length) (hj : q + feats.length ≤ j) :
    (replaceSpan embeds q feats)[j]? = embeds[j]? := by
  unfold replaceSpan
  rw [List.append_assoc,
    List.getElem?_append_right (by simp only [List.length_take]; omega),
    List.getElem?_append_right (by simp only [List.length_take]; omega),
    List.getElem?_drop]
  congr 1
  simp only [List.length_take]
  omega

/-- Validity of a run of START positions, checked the way the per-START
loop (lines 240–244) checks it: for each position `p`, the cursor must be in
range and the token at `p + n + 1` (with `n` the size of the consumed
feature set) must be the END marker. -/
def validStartRun (cfg : GraphConfig) (ids : List Nat) (features : List (List Vec)) :
    List Nat → Nat → Bool
  | [], _ => true
  | p :: rest, idx =>
    match features[idx]? with
    | none => false
    | some feats =>
      (ids[p + feats.length + 1]? == some cfg.graph_end_token) &&
        validStartRun cfg ids features rest (idx + 1)

theorem validStartRun_head {cfg : GraphConfig} {ids : List Nat}
    {features : List (List Vec)} {p : Nat} {l : List Nat} {idx : Nat}
    (h : validStartRun cfg ids features (p :: l) idx = true) :
    ∃ feats, features[idx]? = some feats ∧
      ids[p + feats.length + 1]? = some cfg.graph_end_token := by
  simp only [validStartRun] at h
  cases hf : features[idx]? with
  | none => rw [hf] at h; simp at h
  | some feats =>
    rw [hf] at h
    simp only [Bool.and_eq_true, beq_iff_eq] at h
    exact ⟨feats, rfl, h.1⟩

theorem validStartRun_of_append_left (cfg : GraphConfig) (ids : List Nat)
    (features : List (List Vec)) :
    ∀ (l₁ l₂ : List Nat) (idx : Nat),
      validStartRun cfg ids features (l₁ ++ l₂) idx = true →
      validStartRun cfg ids features l₁ idx = true := by
  intro l₁
  induction l₁ with
  | nil => intro l₂ idx _; rfl
  | cons p rest ih =>
    intro l₂ idx h
    cases hf : features[idx]? with
    | none =>
      simp only [List.cons_append, validStartRun, hf] at h
      exact absurd h (by simp)
    | some feats =>
      simp only [List.cons_append, validStartRun, hf, Bool.and_eq_true] at h
      simp only [validStartRun, hf, Bool.and_eq_true]
      exact ⟨h.1, ih l₂ (idx + 1) h.2⟩

/-- Running the per-START loop through a valid run `l₁` leaves it at the
remaining positions with the cursor advanced by `l₁.length` (the value of
the loop-carried local is existential). -/
theorem spliceStartEnd_run_append (cfg : GraphConfig) (ids : List Nat)
    (embeds : List Vec) (features : List (List Vec)) :
    ∀ (l₁ l₂ : List Nat) (idx : Nat) (last : Option (List Vec)),
      validStartRun cfg ids features l₁ idx = true →
      ∃ last', spliceStartEnd cfg ids embeds features (l₁ ++ l₂) idx last =
        spliceStartEnd cfg ids embeds features l₂ (idx + l₁.length) last' := by
  intro l₁
  induction l₁ with
  | nil => intro l₂ idx last _; exact ⟨last, by simp [List.nil_append]⟩
  | cons p rest ih =>
    intro l₂ idx last hv
    cases hf : features[idx]? with
    | none =>
      simp only [validStartRun, hf] at hv
      exact absurd hv (by simp)
    | some feats =>
      simp only [validStartRun, hf, Bool.and_eq_true, beq_iff_eq] at hv
      obtain ⟨hend, hrest⟩ := hv
      obtain ⟨last', hl⟩ := ih l₂ (idx + 1) (some (mergeAt embeds p feats)) hrest
      refine ⟨last', ?_⟩
      simp only [List.cons_append, spliceStartEnd, hf, hend, if_pos, List.append_eq]
      rw [hl]
      have harith : idx + 1 + rest.length = idx + (p :: rest).length := by
        simp only [List.length_cons]; omega
      rw [harith]

theorem spliceStartEnd_single (cfg : GraphConfig) (ids : List Nat)
    (embeds : List Vec) (features : List (List Vec)) (p j : Nat)
    (feats : List Vec) (last : Option (List Vec))
    (hf : features[j]? = some feats)
    (hend : ids[p + feats.length + 1]? = some cfg.graph_end_token) :
    spliceStartEnd cfg ids embeds features [p] j last =
      .ok (j + 1, some (mergeAt embeds p feats)) := by
  simp [spliceStartEnd, hf, hend]

theorem mergeAt_length {embeds feats : List Vec} {p : Nat}
    (h : p + feats.length + 1 ≤ embeds.length) :
    (mergeAt embeds p feats).length = embeds.length := by
  unfold mergeAt
  simp only [List.length_append, List.length_take, List.length_drop]
  omega

/-! ## C2 -/

/-- Claim C2: for every valid patch-only-mode sample (PATCH markers
contiguous, count equal to the consumed feature set's size), the splicer
replaces exactly the contiguous span of length `n` starting at the first
PATCH position with the `n` projected feature vectors in order, every
position outside that span is unchanged, and the merged length equals the
original length; the cursor consumes exactly one feature set. -/
theorem C2_patchOnly_replace (cfg : GraphConfig) (dummy : List Vec)
    (features : List (List Vec)) (ids : List Nat) (embeds : List Vec)
    (idx : Nat) (last : Option (List Vec)) (feats : List Vec) (q : Nat)
    (h_use : cfg.use_graph_start_end = false)
    (h_feat : features[idx]? = some feats)
    (h_pos : markerPositions cfg.graph_patch_token ids = List.range' q feats.length)
    (h_n : feats.length ≠ 0)
    (h_len : embeds.length = ids.length) :
    processSample cfg dummy features ids embeds idx last =
      .ok (replaceSpan embeds q feats, idx + 1, some (replaceSpan embeds q feats)) ∧
    (replaceSpan embeds q feats).length = embeds.length ∧
    (∀ j, j < q → (replaceSpan embeds q feats)[j]? = embeds[j]?) ∧
    (∀ k, k < feats.length → (replaceSpan embeds q feats)[q + k]? = feats[k]?) ∧
    (∀ j, q + feats.length ≤ j → (replaceSpan embeds q feats)[j]? = embeds[j]?) := by
  have hcount : ids.count cfg.graph_patch_token = feats.length := by
    rw [← markerPositions_length_count, h_pos, List.length_range']
  have hqn : q + feats.length ≤ ids.length := by
    have hmem : q + (feats.length - 1) ∈ markerPositions cfg.graph_patch_token ids := by
      rw [h_pos, List.mem_range']
      exact ⟨feats.length - 1, by omega, by omega⟩
    have := markerPositions_mem_lt hmem
    omega
  have hqn' : q + feats.length ≤ embeds.length := by omega
  refine ⟨?_, replaceSpan_length hqn',
    fun j hj => replaceSpan_getElem_left (by omega) hj,
    fun k hk => replaceSpan_getElem_span (by omega) hk,
    fun j hj => replaceSpan_getElem_right hqn' hj⟩
  have hne : ids.count cfg.graph_patch_token ≠ 0 := by rw [hcount]; exact h_n
  obtain ⟨n', hn'⟩ : ∃ n', feats.length = n' + 1 := ⟨feats.length - 1, by omega⟩
  rw [hn', List.range'_succ] at h_pos
  unfold processSample
  rw [if_neg hne]
  simp only [h_use, Bool.false_eq_true, if_false, h_feat, hcount, hn', List.range'_succ,
    h_pos, ne_eq, Nat.succ_ne_self, not_false_eq_true, not_true_eq_false, if_true, if_false]

/-- Witness for C2: token ids `[9, 1, 1, 9]` (PATCH = 1) with a 2-vector
feature set; the span at positions 1–2 is replaced. -/
theorem C2_patchOnly_replace_witness :
    processSample ⟨1, 2, 3, false⟩ [] [[[50], [60]]] [9, 1, 1, 9] [[8], [9], [10], [11]] 0 none =
      .ok (replaceSpan [[8], [9], [10], [11]] 1 [[50], [60]], 0 + 1,
           some (replaceSpan [[8], [9], [10], [11]] 1 [[50], [60]])) ∧
    (replaceSpan [[8], [9], [10], [11]] 1 [[50], [60]]).length = 4 ∧
    (∀ j, j < 1 → (replaceSpan [[8], [9], [10], [11]] 1 [[50], [60]])[j]? = [[(8 : ℚ)], [9], [10], [11]][j]?) ∧
    (∀ k, k < 2 → (replaceSpan [[8], [9], [10], [11]] 1 [[50], [60]])[1 + k]? = [[(50 : ℚ)], [60]][k]?) ∧
    (∀ j, 1 + 2 ≤ j → (replaceSpan [[8], [9], [10], [11]] 1 [[50], [60]])[j]? = [[(8 : ℚ)], [9], [10], [11]][j]?) :=
  C2_patchOnly_replace ⟨1, 2, 3, false⟩ [] [[[50], [60]]] [9, 1, 1, 9]
    [[8], [9], [10], [11]] 0 none [[50], [60]] 1 rfl rfl (by decide) (by decide) rfl

/-! ## C3 -/

/-- Claim C3: for every sample whose token ids contain zero PATCH markers,
the splicer's output embeddings equal the input embeddings exactly (the
dummy term, multiplied by zero, changes no value) and the graph-feature
cursor still advances by exactly one. -/
theorem C3_textOnly_passThrough (cfg : GraphConfig) (dummy : List Vec)
    (features : List (List Vec)) (ids : List Nat) (embeds : List Vec)
    (idx : Nat) (last : Option (List Vec))
    (h : ids.count cfg.graph_patch_token = 0) :
    processSample cfg dummy features ids embeds idx last = .ok (embeds, idx + 1, last) := by
  unfold processSample
  rw [if_pos h, addDummy_eq]

/-- Witness for C3 at a concrete text-only sample. -/
theorem C3_textOnly_passThrough_witness :
    processSample ⟨1, 2, 3, true⟩ [[5, 7], [9, 11]] [[[42]]] [0, 4, 0] [[8], [9], [10]] 0 none =
      .ok ([[8], [9], [10]], 0 + 1, none) :=
  C3_textOnly_passThrough ⟨1, 2, 3, true⟩ [[5, 7], [9, 11]] [[[42]]] [0, 4, 0]
    [[8], [9], [10]] 0 none (by decide)

/-! ## C1 -/

/-- Counterexample to claim C1 as stated: a valid start/end sample with two
graph regions (`ids = [S, P, E, S, P, E]`, two 1-vector feature sets).  The
splicer consumes both feature sets, but the appended merged sequence is
rebuilt from the original embeddings on every iteration, so the first
region's span (position 1) still holds the original embedding `[11]`, not
the first feature vector `[100]`. -/
theorem C1_counterexample :
    processSample ⟨1, 2, 3, true⟩ [] [[[100]], [[200]]] [2, 1, 3, 2, 1, 3]
        [[10], [11], [12], [13], [14], [15]] 0 none =
      .ok ([[10], [11], [12], [13], [200], [15]], 2,
           some [[10], [11], [12], [13], [200], [15]]) ∧
    [[(10 : ℚ)], [11], [12], [13], [200], [15]][1]? ≠ some [100] :=
  ⟨rfl, by decide⟩

/-- Claim C1 as amended: for every valid start/end-mode sample the merged
sequence has the same length as the original, the START positions are
processed left-to-right consuming feature sets in ascending cursor order
(one per region), but the appended output equals the original embeddings
with ONLY THE LAST region's span replaced by its consumed feature set —
earlier regions' spans keep the original token embeddings, because each
iteration rebuilds `cur_new_input_embeds` from `cur_input_embeds`. -/
theorem C1_startEnd_merge (cfg : GraphConfig) (dummy : List Vec)
    (features : List (List Vec)) (ids : List Nat) (embeds : List Vec)
    (idx : Nat) (last : Option (List Vec)) (pre : List Nat) (p : Nat)
    (flast : List Vec)
    (h_use : cfg.use_graph_start_end = true)
    (h_patch : ids.count cfg.graph_patch_token ≠ 0)
    (h_cnt : ids.count cfg.graph_start_token = ids.count cfg.graph_end_token)
    (h_pos : markerPositions cfg.graph_start_token ids = pre ++ [p])
    (h_valid : validStartRun cfg ids features (pre ++ [p]) idx = true)
    (h_flast : features[idx + pre.length]? = some flast)
    (h_len : embeds.length = ids.length) :
    processSample cfg dummy features ids embeds idx last =
      .ok (mergeAt embeds p flast, idx + pre.length + 1, some (mergeAt embeds p flast)) ∧
    (mergeAt embeds p flast).length = embeds.length := by
  have hvp : validStartRun cfg ids features pre idx = true :=
    validStartRun_of_append_left cfg ids features pre [p] idx h_valid
  have hvlast : validStartRun cfg ids features [p] (idx + pre.length) = true := by
    have : ∀ (l₁ l₂ : List Nat) (j : Nat),
        validStartRun cfg ids features (l₁ ++ l₂) j = true →
        validStartRun cfg ids features l₂ (j + l₁.length) = true := by
      intro l₁
      induction l₁ with
      | nil => intro l₂ j h; simpa using h
      | cons a t ih =>
        intro l₂ j h
        cases hf : features[j]? with
        | none =>
          simp only [List.cons_append, validStartRun, hf] at h
          exact absurd h (by simp)
        | some feats =>
          simp only [List.cons_append, validStartRun, hf, Bool.and_eq_true] at h
          have := ih l₂ (j + 1) h.2
          have harith : j + 1 + t.length = j + (a :: t).length := by
            simp only [List.length_cons]; omega
          rwa [harith] at this
    exact this pre [p] idx h_valid
  obtain ⟨feats', hf', hend'⟩ := validStartRun_head hvlast
  rw [h_flast] at hf'
  obtain rfl : flast = feats' := by injection hf'
  have hend : ids[p + flast.length + 1]? = some cfg.graph_end_token := hend'
  have hlt : p + flast.length + 1 < ids.length := by
    rcases List.getElem?_eq_some_iff.mp hend with ⟨h, _⟩
    exact h
  have hlen : (mergeAt embeds p flast).length = embeds.length :=
    mergeAt_length (by omega)
  refine ⟨?_, hlen⟩
  have hhead : ∃ f₀, features[idx]? = some f₀ := by
    cases pre with
    | nil => exact ⟨flast, by simpa using h_flast⟩
    | cons a t =>
      obtain ⟨f₀, hf₀, _⟩ := validStartRun_head (by simpa using h_valid)
      exact ⟨f₀, hf₀⟩
  obtain ⟨f₀, hf₀⟩ := hhead
  obtain ⟨last', hrun⟩ :=
    spliceStartEnd_run_append cfg ids embeds features pre [p] idx last hvp
  have hsingle :=
    spliceStartEnd_single cfg ids embeds features p (idx + pre.length) flast last'
      h_flast hend
  unfold processSample
  rw [if_neg h_patch]
  simp only [h_use, if_true, hf₀, h_pos, hrun, hsingle, ne_eq, h_cnt,
    not_true_eq_false, if_false]

/-- Witness for the amended C1 at the two-region sample of the
counterexample: the last region's splice is the appended output and the
length is preserved. -/
theorem C1_startEnd_merge_witness :
    processSample ⟨1, 2, 3, true⟩ [] [[[100]], [[200]]] [2, 1, 3, 2, 1, 3]
        [[10], [11], [12], [13], [14], [15]] 0 none =
      .ok (mergeAt [[10], [11], [12], [13], [14], [15]] 3 [[200]], 0 + 1 + 1,
           some (mergeAt [[10], [11], [12], [13], [14], [15]] 3 [[200]])) ∧
    (mergeAt [[10], [11], [12], [13], [14], [15]] 3 [[200]]).length =
      [[(10 : ℚ)], [11], [12], [13], [14], [15]].length :=
  C1_startEnd_merge ⟨1, 2, 3, true⟩ [] [[[100]], [[200]]] [2, 1, 3, 2, 1, 3]
    [[10], [11], [12], [13], [14], [15]] 0 none [0] 3 [[200]]
    rfl (by decide) (by decide) (by decide) (by decide) rfl rfl

/-! ## C5 -/

/-- Claim C5: in start/end mode (for a sample on the graph path: at least
one PATCH token, cursor in range for the read at line 233), the splicer
fails with the count-mismatch validation error whenever the number of START
markers differs from the number of END markers; and for a START position
`p` reached with a valid prefix of the run, consuming the feature set of
size `n`, it fails with the sequence-invalid validation error whenever the
token at `p + n + 1` is not the END marker.  In both cases the result is an
error, so no merged output is produced. -/
theorem C5_startEnd_validation (cfg : GraphConfig) (dummy : List Vec)
    (features : List (List Vec)) (ids : List Nat) (embeds : List Vec)
    (idx : Nat) (last : Option (List Vec))
    (h_use : cfg.use_graph_start_end = true)
    (h_patch : ids.count cfg.graph_patch_token ≠ 0)
    (h_idx : idx < features.length) :
    (ids.count cfg.graph_start_token ≠ ids.count cfg.graph_end_token →
      processSample cfg dummy features ids embeds idx last =
        .error .markerCountMismatch) ∧
    (∀ pre p rest feats tk,
      ids.count cfg.graph_start_token = ids.count cfg.graph_end_token →
      markerPositions cfg.graph_start_token ids = pre ++ p :: rest →
      validStartRun cfg ids features pre idx = true →
      features[idx + pre.length]? = some feats →
      ids[p + feats.length + 1]? = some tk →
      tk ≠ cfg.graph_end_token →
      processSample cfg dummy features ids embeds idx last =
        .error .markerSequenceInvalid) := by
  have hf₀ : features[idx]? = some features[idx] := List.getElem?_eq_getElem h_idx
  constructor
  · intro hne
    unfold processSample
    rw [if_neg h_patch]
    simp only [h_use, if_true, hf₀, ne_eq, hne, not_false_eq_true, if_true]
  · intro pre p rest feats tk h_cnt h_pos hvp h_feat h_tk h_ne
    obtain ⟨last', hrun⟩ :=
      spliceStartEnd_run_append cfg ids embeds features pre (p :: rest) idx last hvp
    have hstep : spliceStartEnd cfg ids embeds features (p :: rest)
        (idx + pre.length) last' = .error .markerSequenceInvalid := by
      simp only [spliceStartEnd, h_feat, h_tk, if_neg h_ne]
    unfold processSample
    rw [if_neg h_patch]
    simp only [h_use, if_true, hf₀, h_pos, hrun, hstep, ne_eq, h_cnt,
      not_true_eq_false, if_false]

/-- Witness for C5: the count-mismatch arm at `ids = [2, 1]` (a START with
no END) and the end-check arm at `ids = [2, 1, 9]` (token 9 instead of the
END marker after the patch span). -/
theorem C5_startEnd_validation_witness :
    processSample ⟨1, 2, 3, true⟩ [] [[[100]]] [2, 1] [[10], [11]] 0 none =
      .error .markerCountMismatch ∧
    processSample ⟨1, 2, 3, true⟩ [] [[[100]]] [2, 1, 9, 3] [[10], [11], [12], [13]] 0 none =
      .error .markerSequenceInvalid :=
  ⟨(C5_startEnd_validation ⟨1, 2, 3, true⟩ [] [[[100]]] [2, 1] [[10], [11]] 0 none
      rfl (by decide) (by decide)).1 (by decide),
   (C5_startEnd_validation ⟨1, 2, 3, true⟩ [] [[[100]]] [2, 1, 9, 3]
      [[10], [11], [12], [13]] 0 none rfl (by decide) (by decide)).2
     [] 0 [] [[100]] 9 (by decide) (by decide) rfl rfl rfl (by decide)⟩

/-! ## C9 -/

/-- Claim C9: in start/end mode, for a sample carrying at least one PATCH
marker but no START and no END marker (with the cursor in range for the
read at line 233), the per-START loop never executes and the splicer
appends the local `cur_new_input_embeds` that was never assigned for this
sample: if no earlier sample assigned it the call fails with the
unbound-variable error (not one of the defined validation kinds), otherwise
the previous sample's merged sequence is silently appended in place of this
sample's embeddings, and the cursor does not advance. -/
theorem C9_missingStart (cfg : GraphConfig) (dummy : List Vec)
    (features : List (List Vec)) (ids : List Nat) (embeds : List Vec) (idx : Nat)
    (h_use : cfg.use_graph_start_end = true)
    (h_patch : ids.count cfg.graph_patch_token ≠ 0)
    (h_start : ids.count cfg.graph_start_token = 0)
    (h_end : ids.count cfg.graph_end_token = 0)
    (h_idx : idx < features.length) :
    processSample cfg dummy features ids embeds idx none = .error .nameError ∧
    (∀ prev, processSample cfg dummy features ids embeds idx (some prev) =
      .ok (prev, idx, some prev)) := by
  have hf₀ : features[idx]? = some features[idx] := List.getElem?_eq_getElem h_idx
  have hpos : markerPositions cfg.graph_start_token ids = [] :=
    markerPositions_nil_of_count_zero h_start
  have hcnt : ids.count cfg.graph_start_token = ids.count cfg.graph_end_token := by
    rw [h_start, h_end]
  constructor
  · unfold processSample
    rw [if_neg h_patch]
    simp only [h_use, if_true, hf₀, hpos, spliceStartEnd, ne_eq, hcnt,
      not_true_eq_false, if_false]
  · intro prev
    unfold processSample
    rw [if_neg h_patch]
    simp only [h_use, if_true, hf₀, hpos, spliceStartEnd, ne_eq, hcnt,
      not_true_eq_false, if_false]

/-- Witness for C9: `ids = [1]` (one PATCH, no START, no END).  With the
local never assigned the call dies with the unbound-variable error; with a
stale value `[[77]]` from a previous sample, `[[77]]` is appended instead
of this sample's embeddings `[[10]]`. -/
theorem C9_missingStart_witness :
    processSample ⟨1, 2, 3, true⟩ [] [[[100]]] [1] [[10]] 0 none = .error .nameError ∧
    processSample ⟨1, 2, 3, true⟩ [] [[[100]]] [1] [[10]] 0 (some [[77]]) =
      .ok ([[77]], 0, some [[77]]) := by
  have h := C9_missingStart ⟨1, 2, 3, true⟩ [] [[[100]]] [1] [[10]] 0
    rfl (by decide) (by decide) (by decide) (by decide)
  exact ⟨h.1, h.2 [[77]]⟩

/-! ## C6 -/

/-- Claim C6: in patch-only mode, for a sample containing PATCH markers
(with the consumed feature set in range), the splicer raises the
count-mismatch error when the number of PATCH markers differs from the
consumed feature set's size, and — when the counts agree — raises the
not-contiguous error when the PATCH positions are not the contiguous
ascending run starting at the first PATCH position.  Both are errors, so
the forward pass aborts with no partial output. -/
theorem C6_patchOnly_validation (cfg : GraphConfig) (dummy : List Vec)
    (features : List (List Vec)) (ids : List Nat) (embeds : List Vec)
    (idx : Nat) (last : Option (List Vec)) (feats : List Vec)
    (h_use : cfg.use_graph_start_end = false)
    (h_feat : features[idx]? = some feats) :
    (ids.count cfg.graph_patch_token ≠ 0 →
      ids.count cfg.graph_patch_token ≠ feats.length →
      processSample cfg dummy features ids embeds idx last =
        .error .markerCountMismatch) ∧
    (∀ q qs,
      ids.count cfg.graph_patch_token = feats.length →
      markerPositions cfg.graph_patch_token ids = q :: qs →
      q :: qs ≠ List.range' q feats.length →
      processSample cfg dummy features ids embeds idx last =
        .error .markerNotContiguous) := by
  constructor
  · intro h_ne0 h_mis
    unfold processSample
    rw [if_neg h_ne0]
    simp only [h_use, Bool.false_eq_true, if_false, h_feat, ne_eq, h_mis,
      not_false_eq_true, if_true]
  · intro q qs h_cnt h_pos h_ncontig
    have h_ne0 : ids.count cfg.graph_patch_token ≠ 0 := by
      rw [← markerPositions_length_count, h_pos]
      simp
    unfold processSample
    rw [if_neg h_ne0]
    simp only [h_use, Bool.false_eq_true, if_false, h_feat, ne_eq, h_cnt,
      not_true_eq_false, if_false, h_pos, h_ncontig, not_false_eq_true, if_true]

/-- Witness for C6: count-mismatch at `ids = [1]` against a 2-vector set,
and not-contiguous at `ids = [1, 9, 1]` (positions 0 and 2) against a
2-vector set. -/
theorem C6_patchOnly_validation_witness :
    processSample ⟨1, 2, 3, false⟩ [] [[[50], [60]]] [1] [[8]] 0 none =
      .error .markerCountMismatch ∧
    processSample ⟨1, 2, 3, false⟩ [] [[[50], [60]]] [1, 9, 1] [[8], [9], [10]] 0 none =
      .error .markerNotContiguous :=
  ⟨(C6_patchOnly_validation ⟨1, 2, 3, false⟩ [] [[[50], [60]]] [1] [[8]] 0 none
      [[50], [60]] rfl rfl).1 (by decide) (by decide),
   (C6_patchOnly_validation ⟨1, 2, 3, false⟩ [] [[[50], [60]]] [1, 9, 1]
      [[8], [9], [10]] 0 none [[50], [60]] rfl rfl).2 0 [2] (by decide) (by decide)
     (by decide)⟩

/-! ## C7 -/

/-- Claim C7: after the splicer processes all samples of a batch, it checks
that the cursor (the number of graph feature sets consumed) equals the
number supplied, raising the fatal internal-consistency assertion error
when they differ, before the merged sequences are stacked; when they agree
the merged sequences are returned. -/
theorem C7_cursorConsistency (cfg : GraphConfig) (dummy : List Vec)
    (features : List (List Vec)) (samples : List (List Nat × List Vec))
    (out : List (List Vec)) (c : Nat)
    (h_run : spliceSamples cfg dummy features samples 0 none = .ok (out, c)) :
    (c ≠ features.length →
      spliceBatch cfg dummy features samples = .error .assertionError) ∧
    (c = features.length → spliceBatch cfg dummy features samples = .ok out) := by
  unfold spliceBatch
  rw [h_run]
  constructor
  · intro h; simp [h]
  · intro h; simp [h]

/-- Witness for C7: one text-only sample consumes one cursor slot while two
feature sets were supplied, so the assertion fires. -/
theorem C7_cursorConsistency_witness :
    spliceBatch ⟨1, 2, 3, false⟩ [] [[[100]], [[200]]] [([0], [[5]])] =
      .error .assertionError :=
  (C7_cursorConsistency ⟨1, 2, 3, false⟩ [] [[[100]], [[200]]] [([0], [[5]])]
    [addDummy [] [[5]]] 1 rfl).1 (by decide)

/-! ## C10 -/

/-- Claim C10: for a forward call whose token batch has sequence length 1
while the model is not in training mode, the gate of line 192 is false even
when a graph tower and graph data are present, so the whole
encode/project/splice block is skipped: the embeddings handed to the
decoder backbone are exactly the raw token embeddings and no splicing
validation error can be raised. -/
theorem C10_generationSkip (hasTower graphData : Bool) (cfg : GraphConfig)
    (dummy : List Vec) (features : List (List Vec)) (ids : List Nat)
    (embeds : List Vec) (rest : List (List Nat × List Vec))
    (h : ids.length = 1) :
    forwardEmbeds hasTower false graphData cfg dummy features ((ids, embeds) :: rest) =
      .ok (((ids, embeds) :: rest).map Prod.snd) := by
  unfold forwardEmbeds
  simp [h]

/-- Witness for C10: a single-token sample, with a tower and graph data
present and a feature set supplied (which, had the splicer run, would have
tripped the final assertion); the raw embeddings pass through. -/
theorem C10_generationSkip_witness :
    forwardEmbeds true false true ⟨1, 2, 3, true⟩ [] [[[100]]] [([7], [[5]])] =
      .ok [[[(5 : ℚ)]]] :=
  C10_generationSkip true true ⟨1, 2, 3, true⟩ [] [[[100]]] [7] [[5]] [] rfl

/-! ## Projection layer and the dummy placeholder (C8) -/

/-- `nn.Linear(in_features, out_features)`: a fixed affine transform.
Applying it to a vector whose width differs from `in_features` is a shape
error (torch raises at matrix multiply), modelled as `none`. -/
structure Linear where
  inFeatures : Nat
  outFeatures : Nat
  weight : List (List ℚ)
  bias : List ℚ

/-- Apply the affine transform to one vector: `W·v + b` row by row, defined
only when the input width matches `in_features`. -/
def Linear.applyVec (l : Linear) (v : List ℚ) : Option (List ℚ) :=
  if v.length = l.inFeatures then
    some (List.zipWith (fun row c => (List.zipWith (· * ·) row v).sum + c) l.weight l.bias)
  else none

/-- Apply the affine transform to a 2-D tensor, i.e. to every row. -/
def Linear.applyRows (l : Linear) (rows : List (List ℚ)) : Option (List (List ℚ)) :=
  rows.mapM l.applyVec

/-- Line 110: `self.graph_projector = nn.Linear(config.graph_hidden_size,
config.hidden_size)`. -/
def mkGraphProjector (graph_hidden_size hidden_size : Nat)
    (w : List (List ℚ)) (b : List ℚ) : Linear :=
  ⟨graph_hidden_size, hidden_size, w, b⟩

/-- Line 217: `dummy_graph_features = torch.zeros(256, 128, ...)` — the
zero placeholder fed to the projector for the dummy-features rule; its
feature width is the hard-coded constant 128. -/
def dummyGraphFeatures : List (List ℚ) :=
  List.replicate 256 (List.replicate 128 0)

theorem mapM_replicate_some {α β : Type} (f : α → Option β) (r : α) (y : β)
    (hf : f r = some y) :
    ∀ n, (List.replicate n r).mapM f = some (List.replicate n y) := by
  intro n
  induction n with
  | zero => rfl
  | succ n ih =>
    rw [List.replicate_succ, List.mapM_cons, hf, ih]
    rfl

/-- Counterexample to claim C8 as stated: for a configuration with
`graph_hidden_size = 64` the dummy placeholder's rows still have width 128,
and pushing the placeholder through the projector fails with a shape error
instead of succeeding. -/
theorem C8_counterexample :
    (mkGraphProjector 64 1 [List.replicate 64 1] [0]).applyRows dummyGraphFeatures =
      none ∧
    (List.replicate 128 (0 : ℚ)).length ≠ 64 := by
  constructor
  · rfl
  · decide

/-- Claim C8 as amended: the zero placeholder passed through the projection
layer for the dummy-features rule has the fixed feature width 128 regardless
of the configuration, so the dummy-projection path succeeds when the
configured `graph_hidden_size` (the projector's input width) is 128 and
fails with a shape error for every other configured width. -/
theorem C8_dummyWidth (ghs hs : Nat) (w : List (List ℚ)) (b : List ℚ) :
    (∀ row ∈ dummyGraphFeatures, row.length = 128) ∧
    (ghs = 128 →
      ((mkGraphProjector ghs hs w b).applyRows dummyGraphFeatures).isSome = true) ∧
    (ghs ≠ 128 →
      (mkGraphProjector ghs hs w b).applyRows dummyGraphFeatures = none) := by
  refine ⟨?_, ?_, ?_⟩
  · intro row hrow
    rw [List.eq_of_mem_replicate hrow]
    simp
  · intro h
    subst h
    have happ : (mkGraphProjector 128 hs w b).applyVec (List.replicate 128 0) =
        some (List.zipWith
          (fun row c => (List.zipWith (· * ·) row (List.replicate 128 (0 : ℚ))).sum + c)
          w b) := by
      unfold Linear.applyVec mkGraphProjector
      rw [if_pos (by simp)]
    rw [Linear.applyRows, dummyGraphFeatures, mapM_replicate_some _ _ _ happ]
    rfl
  · intro h
    have happ : (mkGraphProjector ghs hs w b).applyVec (List.replicate 128 0) = none := by
      unfold Linear.applyVec mkGraphProjector
      rw [if_neg (by simpa using Ne.symm h)]
    rw [Linear.applyRows, dummyGraphFeatures,
      show (256 : Nat) = 255 + 1 from rfl, List.replicate_succ, List.mapM_cons, happ]
    rfl

/-- Witness for the amended C8: with `graph_hidden_size = 64` the dummy
projection fails; with `graph_hidden_size = 128` it succeeds; the rows all
have width 128. -/
theorem C8_dummyWidth_witness :
    (mkGraphProjector 64 2 [List.replicate 64 1, List.replicate 64 2] [3, 4]).applyRows
      dummyGraphFeatures = none ∧
    ((mkGraphProjector 128 1 [List.replicate 128 1] [0]).applyRows
      dummyGraphFeatures).isSome = true :=
  ⟨(C8_dummyWidth 64 2 [List.replicate 64 1, List.replicate 64 2] [3, 4]).2.2
      (by decide),
   (C8_dummyWidth 128 1 [List.replicate 128 1] [0]).2.1 rfl⟩

/-! ## Token Registrar (C4) -/

/-- Tokens of the tokenizer vocabulary: the three marker tokens
(`<g_patch>`, `<g_start>`, `<g_end>`) and the pre-existing ordinary tokens. -/
inductive Token where
  | graphPatch
  | gStart
  | gEnd
  | other (n : Nat)
  deriving DecidableEq, Repr

/-- The shared mutable state the registrar works on: the tokenizer's
vocabulary (in insertion order) and the model's input and output embedding
tables (`get_input_embeddings().weight.data`,
`get_output_embeddings().weight.data`), one row per token. -/
structure EmbedState where
  tokens : List Token
  inputEmb : List Vec
  outputEmb : List Vec

/-- `tokenizer.add_tokens`: append each token not already present, return
the new vocabulary together with the number of tokens actually added. -/
def addTokensGo (tokens : List Token) (k : Nat) : List Token → List Token × Nat
  | [] => (tokens, k)
  | t :: ts =>
    if t ∈ tokens then addTokensGo tokens k ts
    else addTokensGo (tokens ++ [t]) (k + 1) ts

def addTokens (ts : List Token) (tokens : List Token) : List Token × Nat :=
  addTokensGo tokens 0 ts

/-- `model.resize_token_embeddings(len(tokenizer))`: grow the table to the
new vocabulary size; the library fills each appended row with values the
registrar does not control, modelled by the supply `fresh` indexed by the
absolute row index. -/
def resizeRows (fresh : Nat → Vec) (rows : List Vec) (newLen : Nat) : List Vec :=
  rows ++ (List.range (newLen - rows.length)).map (fun j => fresh (rows.length + j))

def vecAdd (a b : Vec) : Vec := List.zipWith (· + ·) a b

def vecScale (c : ℚ) (v : Vec) : Vec := v.map (fun x => c * x)

/-- `rows.mean(dim=0)`: the componentwise arithmetic mean of the rows. -/
def rowsMean : List Vec → Vec
  | [] => []
  | r :: rs => vecScale (1 / ((rs.length + 1 : Nat) : ℚ)) (rs.foldl vecAdd r)

/-- `table[-k:] = row` with a broadcast row: the last `k` rows are replaced
by `row`. -/
def setLastRows (rows : List Vec) (k : Nat) (row : Vec) : List Vec :=
  rows.take (rows.length - k) ++ List.replicate k row

/-- `GraphLlamaForCausalLM.initialize_graph_tokenizer` (lines 393–415),
restricted to its effect on the vocabulary and the two embedding tables in
the default invocation (`pretrain_graph_mlp_adapter = None`; the
`tune_graph_mlp_adapter` branch only toggles gradient flags and snapshots,
never table values).  Steps: add `<g_patch>` and resize both tables; if
start/end mode is requested, add `<g_start>`/`<g_end>`, resize again, and
when `num_new_tokens > 0` set the last `num_new_tokens` rows of each table
to the mean of the rows before them (`table[:-num_new_tokens].mean(dim=0)`). -/
def initGraphTokenizer (useStartEnd : Bool) (freshIn freshOut : Nat → Vec)
    (st : EmbedState) : EmbedState :=
  let r1 := addTokens [Token.graphPatch] st.tokens
  let inp1 := resizeRows freshIn st.inputEmb r1.1.length
  let out1 := resizeRows freshOut st.outputEmb r1.1.length
  if useStartEnd then
    let r2 := addTokens [Token.gStart, Token.gEnd] r1.1
    let inp2 := resizeRows freshIn inp1 r2.1.length
    let out2 := resizeRows freshOut out1 r2.1.length
    if 0 < r2.2 then
      ⟨r2.1,
        setLastRows inp2 r2.2 (rowsMean (inp2.take (inp2.length - r2.2))),
        setLastRows out2 r2.2 (rowsMean (out2.take (out2.length - r2.2)))⟩
    else
      ⟨r2.1, inp2, out2⟩
  else
    ⟨r1.1, inp1, out1⟩

theorem resizeRows_add (fresh : Nat → Vec) (rows : List Vec) (k : Nat) :
    resizeRows fresh rows (rows.length + k) =
      rows ++ (List.range k).map (fun j => fresh (rows.length + j)) := by
  unfold resizeRows
  rw [Nat.add_sub_cancel_left]

/-- Counterexample to claim C4 as stated: starting from a 2-token
vocabulary with input rows `[2], [4]`, resize-initialization `[0]`, the
registrar (start/end mode on) leaves the newly added PATCH row at `[0]`,
while the arithmetic mean of the previously existing rows is `[3]` — so not
every newly added row is set to that mean. -/
theorem C4_counterexample :
    (initGraphTokenizer true (fun _ => [0]) (fun _ => [0])
        ⟨[Token.other 0, Token.other 1], [[2], [4]], [[1], [5]]⟩).inputEmb[2]? =
      some [(0 : ℚ)] ∧
    rowsMean [[(2 : ℚ)], [4]] = [3] ∧
    some [(0 : ℚ)] ≠ some [(3 : ℚ)] := by
  refine ⟨by decide, ?_, by decide⟩
  show rowsMean [[(2 : ℚ)], [4]] = [3]
  norm_num [rowsMean, vecScale, vecAdd]

/-- Claim C4 as amended: with start/end mode requested and all three marker
tokens new, the registrar appends the PATCH row initialized by the resize
step (`freshIn`/`freshOut` — not set to any mean), and sets each of the two
START/END rows — input and output tables independently — to the arithmetic
mean of all rows present just before their initialization, i.e. the
original rows PLUS the freshly added PATCH row.  With start/end mode off,
no row is mean-initialized at all. -/
theorem C4_meanInit (st : EmbedState) (freshIn freshOut : Nat → Vec)
    (hp : Token.graphPatch ∉ st.tokens)
    (hs : Token.gStart ∉ st.tokens)
    (he : Token.gEnd ∉ st.tokens)
    (hi : st.inputEmb.length = st.tokens.length)
    (ho : st.outputEmb.length = st.tokens.length) :
    (initGraphTokenizer true freshIn freshOut st).inputEmb =
      st.inputEmb ++ [freshIn st.tokens.length] ++
        List.replicate 2 (rowsMean (st.inputEmb ++ [freshIn st.tokens.length])) ∧
    (initGraphTokenizer true freshIn freshOut st).outputEmb =
      st.outputEmb ++ [freshOut st.tokens.length] ++
        List.replicate 2 (rowsMean (st.outputEmb ++ [freshOut st.tokens.length])) ∧
    (initGraphTokenizer false freshIn freshOut st).inputEmb =
      st.inputEmb ++ [freshIn st.tokens.length] ∧
    (initGraphTokenizer false freshIn freshOut st).outputEmb =
      st.outputEmb ++ [freshOut st.tokens.length] := by
  have h1 : addTokens [Token.graphPatch] st.tokens = (st.tokens ++ [Token.graphPatch], 1) := by
    simp [addTokens, addTokensGo, hp]
  have h2 : resizeRows freshIn st.inputEmb (st.tokens ++ [Token.graphPatch]).length =
      st.inputEmb ++ [freshIn st.tokens.length] := by
    have hlen : (st.tokens ++ [Token.graphPatch]).length = st.inputEmb.length + 1 := by
      simp [hi]
    rw [hlen, resizeRows_add]
    simp [hi, List.range_succ]
  have h2o : resizeRows freshOut st.outputEmb (st.tokens ++ [Token.graphPatch]).length =
      st.outputEmb ++ [freshOut st.tokens.length] := by
    have hlen : (st.tokens ++ [Token.graphPatch]).length = st.outputEmb.length + 1 := by
      simp [ho]
    rw [hlen, resizeRows_add]
    simp [ho, List.range_succ]
  have hsp : Token.gStart ∉ st.tokens ++ [Token.graphPatch] := by
    simp [hs]
  have hep : Token.gEnd ∉ (st.tokens ++ [Token.graphPatch]) ++ [Token.gStart] := by
    intro hmem
    rcases List.mem_append.mp hmem with hmem' | hmem'
    · rcases List.mem_append.mp hmem' with h'' | h''
      · exact he h''
      · simp at h''
    · simp at hmem'
  have h3 : addTokens [Token.gStart, Token.gEnd] (st.tokens ++ [Token.graphPatch]) =
      (st.tokens ++ [Token.graphPatch, Token.gStart, Token.gEnd], 2) := by
    simp [addTokens, addTokensGo, hsp, hep, hs, he]
  have h4 : resizeRows freshIn (st.inputEmb ++ [freshIn st.tokens.length])
      (st.tokens ++ [Token.graphPatch, Token.gStart, Token.gEnd]).length =
      (st.inputEmb ++ [freshIn st.tokens.length]) ++
        [freshIn (st.tokens.length + 1), freshIn (st.tokens.length + 2)] := by
    have hlen : (st.tokens ++ [Token.graphPatch, Token.gStart, Token.gEnd]).length =
        (st.inputEmb ++ [freshIn st.tokens.length]).length + 2 := by
      simp [hi]
    rw [hlen, resizeRows_add]
    have hl1 : (st.inputEmb ++ [freshIn st.tokens.length]).length = st.tokens.length + 1 := by
      simp [hi]
    rw [hl1]
    simp [List.range_succ]
  have h4o : resizeRows freshOut (st.outputEmb ++ [freshOut st.tokens.length])
      (st.tokens ++ [Token.graphPatch, Token.gStart, Token.gEnd]).length =
      (st.outputEmb ++ [freshOut st.tokens.length]) ++
        [freshOut (st.tokens.length + 1), freshOut (st.tokens.length + 2)] := by
    have hlen : (st.tokens ++ [Token.graphPatch, Token.gStart, Token.gEnd]).length =
        (st.outputEmb ++ [freshOut st.tokens.length]).length + 2 := by
      simp [ho]
    rw [hlen, resizeRows_add]
    have hl1 : (st.outputEmb ++ [freshOut st.tokens.length]).length = st.tokens.length + 1 := by
      simp [ho]
    rw [hl1]
    simp [List.range_succ]
  have htake : ∀ (rows : List Vec) (y z : Vec),
      (rows ++ [y, z]).take ((rows ++ [y, z]).length - 2) = rows := by
    intro rows y z
    have hl : (rows ++ [y, z]).length - 2 = rows.length := by simp
    rw [hl]
    exact List.take_left' rfl
  have hyz : ∀ (rows : List Vec) (y z : Vec), rows ++ [y, z] = (rows ++ [y]) ++ [z] := by
    intro rows y z
    simp
  refine ⟨?_, ?_, ?_, ?_⟩
  · simp only [initGraphTokenizer, h1, h2, h2o, h3, h4, h4o, setLastRows]
    rw [if_pos (by decide : (0 : Nat) < 2)]
    have := htake (st.inputEmb ++ [freshIn st.tokens.length])
      (freshIn (st.tokens.length + 1)) (freshIn (st.tokens.length + 2))
    simp only [List.append_assoc, List.cons_append, List.nil_append] at this ⊢
    rw [this]
    simp
  · simp only [initGraphTokenizer, h1, h2, h2o, h3, h4, h4o, setLastRows]
    rw [if_pos (by decide : (0 : Nat) < 2)]
    have := htake (st.outputEmb ++ [freshOut st.tokens.length])
      (freshOut (st.tokens.length + 1)) (freshOut (st.tokens.length + 2))
    simp only [List.append_assoc, List.cons_append, List.nil_append] at this ⊢
    rw [this]
    simp
  · simp only [initGraphTokenizer, h1, h2, h2o]
    simp
  · simp only [initGraphTokenizer, h1, h2, h2o]
    simp

/-- Witness for the amended C4 at the counterexample's concrete state. -/
theorem C4_meanInit_witness :
    (initGraphTokenizer true (fun _ => [0]) (fun _ => [0])
        ⟨[Token.other 0, Token.other 1], [[2], [4]], [[1], [5]]⟩).inputEmb =
      [[(2 : ℚ)], [4]] ++ [[0]] ++
        List.replicate 2 (rowsMean ([[(2 : ℚ)], [4]] ++ [[0]])) ∧
    (initGraphTokenizer true (fun _ => [0]) (fun _ => [0])
        ⟨[Token.other 0, Token.other 1], [[2], [4]], [[1], [5]]⟩).outputEmb =
      [[(1 : ℚ)], [5]] ++ [[0]] ++
        List.replicate 2 (rowsMean ([[(1 : ℚ)], [5]] ++ [[0]])) := by
  have h := C4_meanInit ⟨[Token.other 0, Token.other 1], [[2], [4]], [[1], [5]]⟩
    (fun _ => [0]) (fun _ => [0]) (by decide) (by decide) (by decide) rfl rfl
  exact ⟨h.1, h.2.1⟩

end GraphGPT
